import Mathlib

/-!
Verification development for the notion-guardian backup script
(`src/index.ts`, the active implementation: `exportFromNotion`,
`extractZip` and `run`).

The embedding is shallow: the polling loop of `exportFromNotion`
(lines 224-305) becomes a recursive function over the list of network
responses the loop observes; the download await (lines 307-321) becomes a
function of the stream events it registers handlers for; the archive
flattening of `extractZip` (lines 324-366) becomes a function over an
explicit zip/filesystem model; `run` (lines 368-379) sequences them.
-/

/-! ## Character-list helpers (substring / pattern tests used by the code) -/

/-- Does the first list occur as an initial segment of the second?
Models the initial-segment check underlying `String.prototype.includes`
and `String.prototype.startsWith`. -/
def leadsWith : List Char → List Char → Bool
  | [], _ => true
  | _ :: _, [] => false
  | a :: as, b :: bs => a == b && leadsWith as bs

/-- Does `needle` occur as a contiguous substring of the second list?
Models `cookie.includes("file_token=")` (src/index.ts line 275). -/
def hasSub (needle : List Char) : List Char → Bool
  | [] => leadsWith needle []
  | c :: cs => leadsWith needle (c :: cs) || hasSub needle cs

/-- After the literal `Part-`, the regex `\d+\.zip` must match: one or more
digits followed immediately by `.zip` (src/index.ts line 333). -/
def digitsThenZip : List Char → Bool
  | [] => false
  | c :: cs => c.isDigit && (leadsWith ['.', 'z', 'i', 'p'] cs || digitsThenZip cs)

/-- Does the unanchored pattern `Part-\d+\.zip` match at the head of the list? -/
def partHere : List Char → Bool
  | 'P' :: 'a' :: 'r' :: 't' :: '-' :: rest => digitsThenZip rest
  | _ => false

/-- `name.match(/Part-\d+\.zip/)` is truthy: the pattern matches somewhere in
the name (src/index.ts lines 332-334).  The pattern is unanchored. -/
def hasPartZip : List Char → Bool
  | [] => false
  | c :: cs => partHere (c :: cs) || hasPartZip cs

/-- `name.startsWith("Export-")` (src/index.ts lines 347-349). -/
def isExportName (s : String) : Bool :=
  leadsWith ("Export-".toList) s.toList

/-! ## The polling protocol model (`exportFromNotion`, src/index.ts 224-305)

The remote `getTasks` endpoint is the loop's only source of input, so the
loop is embedded as a recursion over the list of responses it will observe,
threading the mutable locals `pollAttempts` and `rateLimitRetries` and the
accumulated sleep time explicitly. -/

/-- JavaScript truthiness of an optional string field: `undefined` and the
empty string are falsy. -/
def truthyStr : Option String → Bool
  | none => false
  | some s => !(s == "")

/-- The `status` sub-object of a task record (`NotionTask` type,
src/index.ts lines 167-175); both fields can be absent at runtime. -/
structure ExportStatus where
  pagesExported : Option Nat
  exportURL : Option String
deriving DecidableEq

/-- A task record returned by `getTasks`. -/
structure NotionTask where
  id : String
  state : String
  status : Option ExportStatus
  error : Option String
deriving DecidableEq

/-- One observed outcome of the `client.post("getTasks", ...)` call:
an HTTP 429 rate-limit error, some other transport error, or a response
body with its `set-cookie` header entries. -/
inductive PollResponse where
  | rateLimited
  | netError
  | ok (cookies : List String) (results : List NotionTask)
deriving DecidableEq

/-- An error thrown out of the polling loop. -/
inductive DriverError where
  | remoteFailure (reason : String)
  | missingExportURL
  | missingFileToken
  | transportError
deriving DecidableEq

/-- How the `while` loop (src/index.ts line 233) was left. -/
inductive LoopExit where
  | broke (url token : String)
  | threw (e : DriverError)
  | ended
  | starved
deriving DecidableEq

/-- The loop's final control state: how it exited, the final values of the
mutable counters `pollAttempts` and `rateLimitRetries`, and the total time
spent in `sleep` calls (seconds). `starved` marks the modelling artifact of
running out of scripted responses while the loop would keep polling. -/
structure LoopResult where
  exit : LoopExit
  pollAttempts : Nat
  rateLimitRetries : Nat
  sleepTotal : Nat
deriving DecidableEq

/-- `POLL_INTERVAL` (src/index.ts line 228). -/
def POLL_INTERVAL : Nat := 3

/-- `MAX_POLL_ATTEMPTS` (src/index.ts line 229). -/
def MAX_POLL_ATTEMPTS : Nat := 100

/-- The polling loop of `exportFromNotion` (src/index.ts lines 233-300),
one recursive step per observed response.  Per iteration the code runs
`pollAttempts++`, sleeps `POLL_INTERVAL + 2 ** rateLimitRetries` seconds,
issues `getTasks`, and then dispatches:
a 429 error increments `rateLimitRetries` and decrements `pollAttempts`
(net effect: `pollAttempts` unchanged); any other transport error is
rethrown; a missing task record hits `continue` (line 252), skipping the
`rateLimitRetries = 0` reset at line 287; a truthy `task.error` throws;
`state === "success"` either throws (missing `status`/`exportURL`, missing
`file_token` cookie) or `break`s with the pair; every other state reaches
the reset at line 287 and keeps polling. -/
def pollLoop (tid : String) (maxA : Nat) :
    List PollResponse → Nat → Nat → Nat → LoopResult
  | [], a, k, s =>
    if maxA ≤ a then ⟨.ended, a, k, s⟩ else ⟨.starved, a, k, s⟩
  | r :: rest, a, k, s =>
    if maxA ≤ a then ⟨.ended, a, k, s⟩ else
    let s2 := s + (POLL_INTERVAL + 2 ^ k)
    match r with
    | .rateLimited => pollLoop tid maxA rest a (k + 1) s2
    | .netError => ⟨.threw .transportError, a + 1, k, s2⟩
    | .ok cookies tasks =>
      match tasks.find? (fun t => t.id == tid) with
      | none => pollLoop tid maxA rest (a + 1) k s2
      | some t =>
        if truthyStr t.error then
          ⟨.threw (.remoteFailure (t.error.getD "")), a + 1, k, s2⟩
        else if t.state == "success" then
          match t.status with
          | none => ⟨.threw .missingExportURL, a + 1, k, s2⟩
          | some st =>
            if truthyStr st.exportURL then
              match cookies.find? (fun c => hasSub ("file_token=".toList) c.toList) with
              | some ck => ⟨.broke (st.exportURL.getD "") ck, a + 1, k, s2⟩
              | none => ⟨.threw .missingFileToken, a + 1, k, s2⟩
            else ⟨.threw .missingExportURL, a + 1, k, s2⟩
        else pollLoop tid maxA rest (a + 1) 0 s2

/-- What `exportFromNotion` does with the loop's result. -/
inductive DriverOutcome where
  | success (exportURL fileToken : String)
  | failed (e : DriverError)
  | timeout (reportedSeconds : Nat)
  | starved
deriving DecidableEq

/-- The code after the loop (src/index.ts lines 302-305): thrown errors
propagate; otherwise `if (pollAttempts >= MAX_POLL_ATTEMPTS)` throws the
timeout error — also when the loop exited via the success `break` on its
last permitted attempt.  The timeout message reports the constant
`MAX_POLL_ATTEMPTS * POLL_INTERVAL / 60` minutes, carried here in seconds. -/
def finishDrive (r : LoopResult) : DriverOutcome :=
  match r.exit with
  | .threw e => .failed e
  | .starved => .starved
  | .ended => .timeout (MAX_POLL_ATTEMPTS * POLL_INTERVAL)
  | .broke url token =>
    if MAX_POLL_ATTEMPTS ≤ r.pollAttempts then
      .timeout (MAX_POLL_ATTEMPTS * POLL_INTERVAL)
    else .success url token

/-- The polling phase of `exportFromNotion` run against a scripted list of
responses, from the initial state `pollAttempts = 0`, `rateLimitRetries = 0`. -/
def driveExport (tid : String) (rs : List PollResponse) : DriverOutcome :=
  finishDrive (pollLoop tid MAX_POLL_ATTEMPTS rs 0 0 0)

/-- Total seconds spent sleeping during the polling phase — a lower bound on
its elapsed wall-clock time. -/
def driveSleep (tid : String) (rs : List PollResponse) : Nat :=
  (pollLoop tid MAX_POLL_ATTEMPTS rs 0 0 0).sleepTotal

/-- A response on which the loop keeps polling: not rate-limited, not a
transport error, and its task record (if found) has a falsy `error` and a
non-`success` state. -/
def keepsPolling (tid : String) : PollResponse → Bool
  | .rateLimited => false
  | .netError => false
  | .ok _ tasks =>
    match tasks.find? (fun t => t.id == tid) with
    | none => true
    | some t => !truthyStr t.error && !(t.state == "success")

/-! ## The download await model (src/index.ts lines 307-321)

`exportFromNotion` pipes the axios response stream into a local write
stream and awaits a promise whose only handlers are the destination
writer's `close` (resolve) and `error` (reject) events.  Node's
`Readable.pipe` does not forward source-stream errors to the destination,
and the destination's `close` fires only after the source ends normally,
so a source stream that terminates before the declared `content-length`
has been delivered settles neither handler.  The declared length itself is
used only for the progress log at line 315. -/

/-- How the remote byte stream ends: normally, or before the declared
number of bytes has been received. -/
inductive SourceEvt where
  | ended
  | truncated
deriving DecidableEq

/-- What the local write stream does. -/
inductive SinkEvt where
  | wrote
  | writeError
deriving DecidableEq

/-- How the awaited promise settles. -/
inductive AwaitResult where
  | resolved
  | rejected
  | neverSettles
deriving DecidableEq

/-- Classify the source stream from received and declared byte counts. -/
def classifyStream (received declared : Nat) : SourceEvt :=
  if received < declared then .truncated else .ended

/-- The promise of src/index.ts lines 318-321: it rejects exactly on a
destination write error; a truncated source leaves both registered
handlers unfired. -/
def downloadAwait : SourceEvt → SinkEvt → AwaitResult
  | _, .writeError => .rejected
  | .ended, .wrote => .resolved
  | .truncated, .wrote => .neverSettles

/-! ## Filesystem and zip model (`extractZip`, src/index.ts lines 324-366)

A directory is a list of name/node pairs kept sorted by name — the
canonical representation of an unordered directory, so that plain equality
of trees is extensional equality.  Zip archives are entry lists pairing an
entry path (as in `AdmZip.getEntries()[i].entryName`, with `/` separators)
with the file's data; a file's bytes are either opaque raw data or a valid
zip archive (what `new AdmZip(path)` accepts). -/

/-- Contents of one file: opaque bytes, or bytes parseable as a zip. -/
inductive FileData where
  | raw (s : String)
  | zipped (entries : List (String × FileData))

/-- A filesystem node: a file or a directory. -/
inductive FsNode where
  | file (data : FileData)
  | dir (children : List (String × FsNode))

/-- A directory listing (the children of one directory). -/
abbrev Fs := List (String × FsNode)

/-- Boolean lexicographic order on char lists, for canonical child order. -/
def lexLt : List Char → List Char → Bool
  | [], [] => false
  | [], _ :: _ => true
  | _ :: _, [] => false
  | a :: as, b :: bs => Nat.blt a.toNat b.toNat || (a == b && lexLt as bs)

/-- Boolean order on names. -/
def strLtB (a b : String) : Bool := lexLt a.toList b.toList

/-- Insert or overwrite a child, keeping the listing sorted by name. -/
def setChild (name : String) (node : FsNode) : Fs → Fs
  | [] => [(name, node)]
  | (n, c) :: rest =>
    if n == name then (n, node) :: rest
    else if strLtB name n then (name, node) :: (n, c) :: rest
    else (n, c) :: setChild name node rest

/-- Look up a child by name. -/
def getChild (name : String) : Fs → Option FsNode
  | [] => none
  | (n, c) :: rest => if n == name then some c else getChild name rest

/-- Remove a child by name (no-op when absent). -/
def removeChild (name : String) : Fs → Fs
  | [] => []
  | (n, c) :: rest => if n == name then rest else (n, c) :: removeChild name rest

/-- Split a zip entry path on `/` (entry paths use forward slashes). -/
def splitSlashAux (acc : List Char) : List Char → List String
  | [] => [String.mk acc.reverse]
  | c :: cs =>
    if c == '/' then String.mk acc.reverse :: splitSlashAux [] cs
    else splitSlashAux (c :: acc) cs

/-- Path components of an entry name. -/
def splitPath (s : String) : List String := splitSlashAux [] s.toList

/-- Write a file at a path, creating intermediate directories and
overwriting whatever is there (the `true` overwrite flag of
`extractAllTo`). -/
def fsWrite : Fs → List String → FileData → Fs
  | fs, [], _ => fs
  | fs, [n], d => setChild n (.file d) fs
  | fs, n :: n2 :: rest, d =>
    let sub : Fs :=
      match getChild n fs with
      | some (.dir cs) => cs
      | _ => []
    setChild n (.dir (fsWrite sub (n2 :: rest) d)) fs

/-- Look up the node at a path. -/
def fsGet : Fs → List String → Option FsNode
  | fs, [] => some (.dir fs)
  | fs, [n] => getChild n fs
  | fs, n :: n2 :: rest =>
    match getChild n fs with
    | some (.dir cs) => fsGet cs (n2 :: rest)
    | _ => none

/-- Place an arbitrary node at a path, creating intermediate directories. -/
def fsSet : Fs → List String → FsNode → Fs
  | fs, [], _ => fs
  | fs, [n], node => setChild n node fs
  | fs, n :: n2 :: rest, node =>
    let sub : Fs :=
      match getChild n fs with
      | some (.dir cs) => cs
      | _ => []
    setChild n (.dir (fsSet sub (n2 :: rest) node)) fs

/-- Remove the node at a path (no-op when the path is absent). -/
def fsRemove : Fs → List String → Fs
  | fs, [] => fs
  | fs, [n] => removeChild n fs
  | fs, n :: n2 :: rest =>
    match getChild n fs with
    | some (.dir cs) => setChild n (.dir (fsRemove cs (n2 :: rest))) fs
    | _ => fs

/-- `fs.unlink`: fails unless a file is at the path. -/
def fsUnlink (fs : Fs) (p : List String) : Option Fs :=
  match fsGet fs p with
  | some (.file _) => some (fsRemove fs p)
  | _ => none

/-- `fs.rmdir`: fails unless an empty directory is at the path. -/
def fsRmdir (fs : Fs) (p : List String) : Option Fs :=
  match fsGet fs p with
  | some (.dir []) => some (fsRemove fs p)
  | _ => none

/-- `fs.readdir`: the child names of the directory at the path. -/
def fsReaddir (fs : Fs) (p : List String) : Option (List String) :=
  match fsGet fs p with
  | some (.dir cs) => some (cs.map (fun e => e.1))
  | _ => none

/-- `fs.rename src dst`: moves the node (file or directory) at `src` to
`dst`, overwriting an existing file; renaming onto an existing directory,
or a directory onto an existing file, fails (EISDIR/ENOTEMPTY/ENOTDIR). -/
def fsRename (fs : Fs) (src dst : List String) : Option Fs :=
  match fsGet fs src with
  | none => none
  | some node =>
    let clash : Bool :=
      match node, fsGet fs dst with
      | _, some (.dir _) => true
      | .dir _, some (.file _) => true
      | _, _ => false
    if clash then none
    else some (fsSet (fsRemove fs src) dst node)

/-- `zip.extractAllTo(destination, true)`: write every entry into the
destination, in entry order, overwriting existing files. -/
def extractAll (entries : List (String × FileData)) (fs : Fs) : Fs :=
  entries.foldl (fun acc e => fsWrite acc (splitPath e.1) e.2) fs

/-- Processing of one matched part file (src/index.ts lines 338-343):
read the file at `join(destination, partFile)` — `new AdmZip` throws unless
its bytes parse as a zip — extract its entries into the destination, then
`fs.unlink` the part file. -/
def processPart (dest : Fs) (partFile : String) : Option Fs :=
  match fsGet dest (splitPath partFile) with
  | some (.file (.zipped pes)) => fsUnlink (extractAll pes dest) (splitPath partFile)
  | _ => none

/-- Processing of one export folder (src/index.ts lines 353-364):
`fs.readdir` the folder, `fs.rename` each child up into the destination
(the child list is the snapshot taken before any move), then `fs.rmdir`
the emptied folder. -/
def processFolder (dest : Fs) (folderName : String) : Option Fs :=
  match fsGet dest [folderName] with
  | some (.dir cs) =>
    let names := cs.map (fun e => e.1)
    let moved := names.foldl
      (fun acc n => acc.bind (fun f => fsRename f [folderName, n] [n])) (some dest)
    moved.bind (fun f => fsRmdir f [folderName])
  | _ => none

/-- One step of the part-processing pass, keeping the filesystem reached so
far when a step fails (the error aborts the surrounding `Promise.all` and
propagates). -/
def stepPart (st : Fs × Bool) (p : String) : Fs × Bool :=
  match st with
  | (fs, false) => (fs, false)
  | (fs, true) =>
    match processPart fs p with
    | some fs2 => (fs2, true)
    | none => (fs, false)

/-- One step of the export-folder pass, same failure convention. -/
def stepFolder (st : Fs × Bool) (p : String) : Fs × Bool :=
  match st with
  | (fs, false) => (fs, false)
  | (fs, true) =>
    match processFolder fs p with
    | some fs2 => (fs2, true)
    | none => (fs, false)

/-- `extractZip` (src/index.ts lines 324-366).  The part pass runs in the
order of the outer archive's entry list: `Array.prototype.map` fires its
`async` callbacks synchronously in order, and each callback's `AdmZip`
read and `extractAllTo` run synchronously before its first `await`, so
every part extraction happens in array order (only the `fs.unlink`
completions interleave, each targeting its own distinct part path).  The
export-folder pass is genuinely unordered: each folder callback suspends
at its `fs.readdir` await, so the renames of different folders complete
in an order the runtime chooses, modelled by the `schedF` parameter (a
schedule is any permutation of the folder list).  Returns the final
destination listing and whether the call completed without throwing.
Step 1 extracts the whole archive; step 2 filters the archive's entry
names with the unanchored `Part-\d+\.zip` pattern and processes each
match; step 3 re-reads the destination's top level and processes each
name starting with `Export-`. -/
def extractZipSt (entries : List (String × FileData))
    (schedF : List String → List String) (dest0 : Fs) : Fs × Bool :=
  let fs1 := extractAll entries dest0
  let partFiles := (entries.map (fun e => e.1)).filter (fun n => hasPartZip n.toList)
  let r2 := partFiles.foldl stepPart (fs1, true)
  match r2 with
  | (fs2, true) =>
    let folders := (fs2.map (fun e => e.1)).filter (fun n => isExportName n)
    (schedF folders).foldl stepFolder (fs2, true)
  | (fs2, false) => (fs2, false)

/-- `extractZip` as a fallible function: `some` final tree on success,
`none` when it threw. -/
def extractZipM (entries : List (String × FileData))
    (schedF : List String → List String) (dest0 : Fs) : Option Fs :=
  match extractZipSt entries schedF dest0 with
  | (fs, true) => some fs
  | (_, false) => none

/-- `run` (src/index.ts lines 368-379), viewed through the destination
directory's state.  `pre` is the pre-existing state of `workspace/`
(`none` = absent).  If the export-and-download phase (`exportFromNotion`)
throws, the destination is untouched; otherwise `fs.rm` + `fs.mkdir`
replace it with an empty directory and `extractZip` runs in it.  The
result pairs the destination's final state with whether the run
completed. -/
def runDest (pre : Option Fs) (exportPhaseOk : Bool)
    (entries : List (String × FileData))
    (schedF : List String → List String) : Option Fs × Bool :=
  if exportPhaseOk then
    let r := extractZipSt entries schedF []
    (some r.1, r.2)
  else (pre, false)

/-- The names at the top level of a listing (a decidable projection of a
tree). -/
def topNames (f : Fs) : List String := f.map (fun e => e.1)

/-- The raw contents of the file at a path inside an optional tree. -/
def rawAt (r : Option Fs) (p : List String) : Option String :=
  r.bind (fun f =>
    match fsGet f p with
    | some (.file (.raw s)) => some s
    | _ => none)

/-! ## Concrete task records, responses and archives used in the theorems -/

/-- An in-progress task record for task id `T1`. -/
def progTask : NotionTask := ⟨"T1", "in_progress", some ⟨some 3, none⟩, none⟩

/-- A normal in-progress poll response. -/
def progResp : PollResponse := .ok [] [progTask]

/-- A well-formed success record: non-empty `exportURL` present. -/
def succTask : NotionTask := ⟨"T1", "success", some ⟨some 7, some "https://x/y.zip"⟩, none⟩

/-- A success response carrying both the export URL and the
`file_token` cookie. -/
def succResp : PollResponse := .ok ["file_token=abc; Path=/"] [succTask]

/-- A success record whose `status.exportURL` is absent. -/
def noUrlTask : NotionTask := ⟨"T1", "success", some ⟨some 7, none⟩, none⟩

/-- A record carrying a non-empty `error` field together with a fully
well-formed success payload. -/
def errTask : NotionTask :=
  ⟨"T1", "success", some ⟨some 7, some "https://x/y.zip"⟩, some "boom"⟩

/-- A task record for a different task id. -/
def otherTask : NotionTask := ⟨"T2", "in_progress", some ⟨some 3, none⟩, none⟩

/-- The example archive of the spec: two part archives holding one file
each, plus an export folder holding `notes.md`. -/
def exampleArchive (s1 s2 c : String) : List (String × FileData) :=
  [("Part-1.zip", .zipped [("a.md", .raw s1)]),
   ("Part-2.zip", .zipped [("b.md", .raw s2)]),
   ("Export-foo/notes.md", .raw c)]

/-- The same shape, except `Part-1.zip` itself contains a further
`Part-9.zip`: the inner name is scanned against the outer archive's entry
list only, so it survives flattening. -/
def nestedPartArchive : List (String × FileData) :=
  [("Part-1.zip", .zipped [("Part-9.zip", .zipped [("x.md", .raw "x")])]),
   ("Part-2.zip", .zipped [("b.md", .raw "B")]),
   ("Export-foo/notes.md", .raw "N")]

/-- Two export folders whose children share the name `x.md`. -/
def collidingArchive : List (String × FileData) :=
  [("Export-a/x.md", .raw "1"), ("Export-b/x.md", .raw "2")]

/-- Two export folders with disjoint child names, contents symbolic. -/
def disjointArchive (s1 s2 : String) : List (String × FileData) :=
  [("Export-a/x.md", .raw s1), ("Export-b/y.md", .raw s2)]

/-- A pre-existing destination directory content. -/
def preOld : Fs := [("old.txt", FsNode.file (.raw "O"))]

/-! ## Helper lemmas about the polling loop -/

theorem pollLoop_rate (tid : String) (maxA a k s : Nat) (rest : List PollResponse)
    (ha : a < maxA) :
    pollLoop tid maxA (.rateLimited :: rest) a k s
      = pollLoop tid maxA rest a (k + 1) (s + (POLL_INTERVAL + 2 ^ k)) := by
  have h' : ¬ maxA ≤ a := by omega
  simp [pollLoop, h']

theorem pollLoop_notFound (tid : String) (maxA a k s : Nat) (rest : List PollResponse)
    (cookies : List String) (tasks : List NotionTask) (ha : a < maxA)
    (hfind : tasks.find? (fun u => u.id == tid) = none) :
    pollLoop tid maxA (.ok cookies tasks :: rest) a k s
      = pollLoop tid maxA rest (a + 1) k (s + (POLL_INTERVAL + 2 ^ k)) := by
  have h' : ¬ maxA ≤ a := by omega
  simp [pollLoop, h', hfind]

theorem pollLoop_errField (tid : String) (maxA a k s : Nat) (rest : List PollResponse)
    (cookies : List String) (tasks : List NotionTask) (t : NotionTask) (ha : a < maxA)
    (hfind : tasks.find? (fun u => u.id == tid) = some t)
    (herr : truthyStr t.error = true) :
    pollLoop tid maxA (.ok cookies tasks :: rest) a k s
      = ⟨.threw (.remoteFailure (t.error.getD "")), a + 1, k,
          s + (POLL_INTERVAL + 2 ^ k)⟩ := by
  have h' : ¬ maxA ≤ a := by omega
  simp [pollLoop, h', hfind, herr]

theorem pollLoop_progress (tid : String) (maxA a k s : Nat) (rest : List PollResponse)
    (cookies : List String) (tasks : List NotionTask) (t : NotionTask) (ha : a < maxA)
    (hfind : tasks.find? (fun u => u.id == tid) = some t)
    (herr : truthyStr t.error = false) (hst : (t.state == "success") = false) :
    pollLoop tid maxA (.ok cookies tasks :: rest) a k s
      = pollLoop tid maxA rest (a + 1) 0 (s + (POLL_INTERVAL + 2 ^ k)) := by
  have h' : ¬ maxA ≤ a := by omega
  simp [pollLoop, h', hfind, herr, hst]

theorem pollLoop_ended_of_le (tid : String) (maxA a k s : Nat)
    (rs : List PollResponse) (ha : maxA ≤ a) :
    pollLoop tid maxA rs a k s = ⟨.ended, a, k, s⟩ := by
  cases rs <;> simp [pollLoop, ha]

theorem pollLoop_keeps_ended (tid : String) (maxA : Nat) :
    ∀ (rs : List PollResponse) (a k s : Nat),
      (∀ r ∈ rs, keepsPolling tid r = true) → maxA ≤ a + rs.length →
      (pollLoop tid maxA rs a k s).exit = .ended := by
  intro rs
  induction rs with
  | nil =>
    intro a k s _ hlen
    simp only [List.length_nil, Nat.add_zero] at hlen
    rw [pollLoop_ended_of_le tid maxA a k s [] hlen]
  | cons r rest ih =>
    intro a k s hall hlen
    by_cases ha : maxA ≤ a
    · rw [pollLoop_ended_of_le tid maxA a k s (r :: rest) ha]
    · have ha' : a < maxA := by omega
      have hr : keepsPolling tid r = true := hall r (List.mem_cons_self r rest)
      have hrest : ∀ x ∈ rest, keepsPolling tid x = true :=
        fun x hx => hall x (List.mem_cons_of_mem r hx)
      have hlen' : maxA ≤ (a + 1) + rest.length := by
        simp only [List.length_cons] at hlen; omega
      match r with
      | .rateLimited => simp [keepsPolling] at hr
      | .netError => simp [keepsPolling] at hr
      | .ok cookies tasks =>
        cases hfind : tasks.find? (fun u => u.id == tid) with
        | none =>
          rw [pollLoop_notFound tid maxA a k s rest cookies tasks ha' hfind]
          exact ih (a + 1) k _ hrest hlen'
        | some t =>
          simp only [keepsPolling, hfind, Bool.and_eq_true, Bool.not_eq_true'] at hr
          rw [pollLoop_progress tid maxA a k s rest cookies tasks t ha' hfind hr.1 hr.2]
          exact ih (a + 1) 0 _ hrest hlen'

theorem finishDrive_ended (r : LoopResult) (h : r.exit = .ended) :
    finishDrive r = .timeout (MAX_POLL_ATTEMPTS * POLL_INTERVAL) := by
  obtain ⟨ex, a, k, s⟩ := r
  simp only at h
  subst h
  rfl

/-- C1: on a success response observed strictly below the attempt ceiling
the driver returns the pair when both the export URL and the file-token
cookie are present and throws when either is missing; but on the 100th and
last permitted attempt the same well-formed success response is answered
with the timeout error, because the success `break` leaves
`pollAttempts = MAX_POLL_ATTEMPTS` and the post-loop check
`pollAttempts >= MAX_POLL_ATTEMPTS` fires. -/
theorem c1_success_at_ceiling_times_out :
    driveExport "T1" (List.replicate 99 progResp ++ [succResp])
      = .timeout (MAX_POLL_ATTEMPTS * POLL_INTERVAL)
    ∧ driveExport "T1" (List.replicate 98 progResp ++ [succResp])
      = .success "https://x/y.zip" "file_token=abc; Path=/"
    ∧ driveExport "T1" (List.replicate 49 progResp ++ [.ok [] [succTask]])
      = .failed .missingFileToken
    ∧ driveExport "T1" (List.replicate 49 progResp ++ [.ok ["file_token=abc; Path=/"] [noUrlTask]])
      = .failed .missingExportURL := by
  exact ⟨by decide, by decide, by decide, by decide⟩

/-- C2 counterexample: after a rate-limited response (one strike) the next
response is non-rate-limited (its result set is empty, the not-found
path), yet `rateLimitRetries` is not reset to 0: the `continue` at line
252 skips the reset at line 287.  The response was consumed and counted
(`pollAttempts = 1`). -/
theorem c2_not_found_skips_reset :
    (pollLoop "T1" MAX_POLL_ATTEMPTS
        [PollResponse.rateLimited, PollResponse.ok [] []] 0 0 0).rateLimitRetries ≠ 0
    ∧ (pollLoop "T1" MAX_POLL_ATTEMPTS
        [PollResponse.rateLimited, PollResponse.ok [] []] 0 0 0).pollAttempts = 1 := by
  exact ⟨by decide, by decide⟩

/-- C2 amended: a rate-limited response never increments `pollAttempts`
(and adds a strike); a non-rate-limited response whose result set misses
the job id increments `pollAttempts` but leaves `rateLimitStrikes`
unchanged; a non-rate-limited response carrying the job record with no
error and a non-success state increments `pollAttempts` and resets
`rateLimitStrikes` to 0. -/
theorem c2_strike_reset_amended (tid : String) (maxA a k s : Nat)
    (rest : List PollResponse) (cookies : List String)
    (tasks : List NotionTask) (t : NotionTask) (ha : a < maxA) :
    (pollLoop tid maxA (.rateLimited :: rest) a k s
      = pollLoop tid maxA rest a (k + 1) (s + (POLL_INTERVAL + 2 ^ k)))
    ∧ (tasks.find? (fun u => u.id == tid) = none →
        pollLoop tid maxA (.ok cookies tasks :: rest) a k s
          = pollLoop tid maxA rest (a + 1) k (s + (POLL_INTERVAL + 2 ^ k)))
    ∧ (tasks.find? (fun u => u.id == tid) = some t →
        truthyStr t.error = false → (t.state == "success") = false →
        pollLoop tid maxA (.ok cookies tasks :: rest) a k s
          = pollLoop tid maxA rest (a + 1) 0 (s + (POLL_INTERVAL + 2 ^ k))) := by
  refine ⟨pollLoop_rate tid maxA a k s rest ha,
    fun hf => pollLoop_notFound tid maxA a k s rest cookies tasks ha hf,
    fun hf he hs => pollLoop_progress tid maxA a k s rest cookies tasks t ha hf he hs⟩

/-- C2 amended, witnessed at concrete inputs. -/
theorem c2_strike_reset_amended_witness :
    0 < MAX_POLL_ATTEMPTS
    ∧ pollLoop "T1" MAX_POLL_ATTEMPTS [.rateLimited] 0 0 0
        = pollLoop "T1" MAX_POLL_ATTEMPTS [] 0 1 4
    ∧ pollLoop "T1" MAX_POLL_ATTEMPTS [.ok [] []] 0 0 0
        = pollLoop "T1" MAX_POLL_ATTEMPTS [] 1 0 4
    ∧ pollLoop "T1" MAX_POLL_ATTEMPTS [.ok [] [progTask]] 0 0 0
        = pollLoop "T1" MAX_POLL_ATTEMPTS [] 1 0 4 :=
  ⟨by decide,
   (c2_strike_reset_amended "T1" MAX_POLL_ATTEMPTS 0 0 0 [] [] [] progTask (by decide)).1,
   (c2_strike_reset_amended "T1" MAX_POLL_ATTEMPTS 0 0 0 [] [] [] progTask (by decide)).2.1 (by decide),
   (c2_strike_reset_amended "T1" MAX_POLL_ATTEMPTS 0 0 0 [] [] [progTask] progTask (by decide)).2.2
     (by decide) (by decide) (by decide)⟩

/-- C3: a response whose task record carries a non-empty `error` field
makes the driver throw the remote-failure error immediately, whatever the
record's `state` is — the check at line 262 precedes the dispatch on
`state` at line 266. -/
theorem c3_error_field_fails_first (tid : String) (maxA a k s : Nat)
    (rest : List PollResponse) (cookies : List String)
    (tasks : List NotionTask) (t : NotionTask) (ha : a < maxA)
    (hfind : tasks.find? (fun u => u.id == tid) = some t)
    (herr : truthyStr t.error = true) :
    pollLoop tid maxA (.ok cookies tasks :: rest) a k s
      = ⟨.threw (.remoteFailure (t.error.getD "")), a + 1, k,
          s + (POLL_INTERVAL + 2 ^ k)⟩ :=
  pollLoop_errField tid maxA a k s rest cookies tasks t ha hfind herr

/-- C3 witnessed on a record whose state is `success` with a well-formed
payload and a `file_token` cookie in the response: the error field still
wins. -/
theorem c3_error_field_fails_first_witness :
    0 < MAX_POLL_ATTEMPTS
    ∧ [errTask].find? (fun u => u.id == "T1") = some errTask
    ∧ truthyStr errTask.error = true
    ∧ pollLoop "T1" MAX_POLL_ATTEMPTS [.ok ["file_token=abc; Path=/"] [errTask]] 0 0 0
        = ⟨.threw (.remoteFailure "boom"), 1, 0, 4⟩ :=
  ⟨by decide, by decide, by decide,
   c3_error_field_fails_first "T1" MAX_POLL_ATTEMPTS 0 0 0 [] ["file_token=abc; Path=/"]
     [errTask] errTask (by decide) (by decide) (by decide)⟩

/-- C5: a response whose result set has no record for the submitted id
keeps the loop polling (no thrown error), and that poll consumes one unit
of the `pollAttempts` budget while leaving `rateLimitRetries` untouched. -/
theorem c5_not_found_continues (tid : String) (maxA a k s : Nat)
    (rest : List PollResponse) (cookies : List String)
    (tasks : List NotionTask) (ha : a < maxA)
    (hfind : tasks.find? (fun u => u.id == tid) = none) :
    pollLoop tid maxA (.ok cookies tasks :: rest) a k s
      = pollLoop tid maxA rest (a + 1) k (s + (POLL_INTERVAL + 2 ^ k)) :=
  pollLoop_notFound tid maxA a k s rest cookies tasks ha hfind

/-- C5 witnessed at a response listing only a record for a different id. -/
theorem c5_not_found_continues_witness :
    0 < MAX_POLL_ATTEMPTS
    ∧ [otherTask].find? (fun u => u.id == "T1") = none
    ∧ pollLoop "T1" MAX_POLL_ATTEMPTS [.ok [] [otherTask]] 0 0 0
        = pollLoop "T1" MAX_POLL_ATTEMPTS [] 1 0 4 :=
  ⟨by decide, by decide,
   c5_not_found_continues "T1" MAX_POLL_ATTEMPTS 0 0 0 [] [] [otherTask]
     (by decide) (by decide)⟩

/-- C4 counterexample: one hundred in-progress responses exhaust the
budget and the driver throws the timeout error, whose message reports the
constant `MAX_POLL_ATTEMPTS * POLL_INTERVAL / 60` minutes (300 seconds);
but the loop's sleep calls alone already total 400 seconds (each
iteration sleeps `POLL_INTERVAL + 2 ** 0 = 4`), so the reported figure is
not the elapsed wall-clock time of the polling phase. -/
theorem c4_timeout_reports_constant :
    driveExport "T1" (List.replicate 100 progResp)
      = .timeout (MAX_POLL_ATTEMPTS * POLL_INTERVAL)
    ∧ driveSleep "T1" (List.replicate 100 progResp) = 400
    ∧ MAX_POLL_ATTEMPTS * POLL_INTERVAL ≠ 400 := by
  exact ⟨by decide, by decide, by decide⟩

/-- C4 amended: whenever every scripted response keeps the loop polling
(non-rate-limited, and either no record for the id or an error-free
non-success record) and at least `MAX_POLL_ATTEMPTS` of them arrive, the
driver raises the timeout error, and its diagnostic reports the nominal
`MAX_POLL_ATTEMPTS * POLL_INTERVAL` duration computed from configuration,
not a measured elapsed time. -/
theorem c4_timeout_amended (tid : String) (rs : List PollResponse)
    (hall : ∀ r ∈ rs, keepsPolling tid r = true)
    (hlen : MAX_POLL_ATTEMPTS ≤ rs.length) :
    driveExport tid rs = .timeout (MAX_POLL_ATTEMPTS * POLL_INTERVAL) := by
  have hE : (pollLoop tid MAX_POLL_ATTEMPTS rs 0 0 0).exit = .ended :=
    pollLoop_keeps_ended tid MAX_POLL_ATTEMPTS rs 0 0 0 hall (by omega)
  exact finishDrive_ended _ hE

/-- C4 amended, witnessed on one hundred not-found responses. -/
theorem c4_timeout_amended_witness :
    (∀ r ∈ List.replicate 100 (PollResponse.ok [] []), keepsPolling "T1" r = true)
    ∧ MAX_POLL_ATTEMPTS ≤ (List.replicate 100 (PollResponse.ok [] [])).length
    ∧ driveExport "T1" (List.replicate 100 (PollResponse.ok [] []))
        = .timeout (MAX_POLL_ATTEMPTS * POLL_INTERVAL) :=
  ⟨by decide, by decide,
   c4_timeout_amended "T1" (List.replicate 100 (PollResponse.ok [] []))
     (by decide) (by decide)⟩

/-! ## Helper lemmas about the name patterns -/

theorem digitsThenZip_append (post : List Char) :
    ∀ ds : List Char, ds ≠ [] → (∀ c ∈ ds, c.isDigit = true) →
      digitsThenZip (ds ++ '.' :: 'z' :: 'i' :: 'p' :: post) = true := by
  intro ds
  induction ds with
  | nil => intro h; exact absurd rfl h
  | cons d rest ih =>
    intro _ hdig
    have hd : d.isDigit = true := hdig d (List.mem_cons_self d rest)
    cases rest with
    | nil =>
      simp [digitsThenZip, hd, leadsWith]
    | cons d2 rest2 =>
      have hrest : ∀ c ∈ (d2 :: rest2), c.isDigit = true :=
        fun c hc => hdig c (List.mem_cons_of_mem d hc)
      have hz := ih (by simp) hrest
      simp [digitsThenZip, hd]
      right
      simpa [digitsThenZip] using hz

theorem hasPartZip_cons_of_tail (c : Char) (l : List Char)
    (h : hasPartZip l = true) : hasPartZip (c :: l) = true := by
  simp [hasPartZip, h]

theorem string_toList_append (a b : String) :
    (a ++ b).toList = a.toList ++ b.toList := by
  obtain ⟨la⟩ := a
  obtain ⟨lb⟩ := b
  rfl

/-- C10: the classifiers `extractZip` filters with are unanchored: any
entry name with `Part-`, one or more digits, `.zip` anywhere in it passes
the nested-archive filter, any name beginning `Export-` passes the
export-folder filter, and an entry whose name merely contains
`Part-1.zip` as a proper substring is opened as a zip and deleted. -/
theorem c10_unanchored_classifiers (pre post ds : List Char) (r : String)
    (hne : ds ≠ []) (hdig : ∀ c ∈ ds, c.isDigit = true) :
    hasPartZip (pre ++ 'P' :: 'a' :: 'r' :: 't' :: '-' ::
        (ds ++ '.' :: 'z' :: 'i' :: 'p' :: post)) = true
    ∧ isExportName ("Export-" ++ r) = true
    ∧ extractZipM [("xPart-1.zipy", FileData.zipped [("q.md", FileData.raw "Q")])] id []
        = some [("q.md", FsNode.file (FileData.raw "Q"))] := by
  refine ⟨?_, ?_, rfl⟩
  · induction pre with
    | nil =>
      have hz := digitsThenZip_append post ds hne hdig
      simp [hasPartZip, partHere, hz]
    | cons c cs ih => exact hasPartZip_cons_of_tail c _ ih
  · simp [isExportName, string_toList_append, leadsWith]

/-- C10 witnessed at `pre = "x"`, digits `"1"`, `post = "y"`. -/
theorem c10_unanchored_classifiers_witness :
    (['1'] : List Char) ≠ []
    ∧ (∀ c ∈ (['1'] : List Char), c.isDigit = true)
    ∧ hasPartZip (['x'] ++ 'P' :: 'a' :: 'r' :: 't' :: '-' ::
        (['1'] ++ '.' :: 'z' :: 'i' :: 'p' :: ['y'])) = true
    ∧ isExportName ("Export-" ++ "assets") = true :=
  ⟨by decide, by decide,
   (c10_unanchored_classifiers ['x'] ['y'] ['1'] "assets" (by decide) (by decide)).1,
   (c10_unanchored_classifiers ['x'] ['y'] ['1'] "assets" (by decide) (by decide)).2.1⟩

/-- C6 counterexample: in an archive of the claimed shape whose
`Part-1.zip` itself contains `Part-9.zip`, flattening leaves
`Part-9.zip` at the destination — an entry the code's own classifier
recognizes as a nested archive — because the part scan reads the outer
archive's entry list only. -/
theorem c6_nested_part_residue :
    extractZipM nestedPartArchive id []
      = some [("Part-9.zip", FsNode.file (FileData.zipped [("x.md", FileData.raw "x")])),
              ("b.md", FsNode.file (FileData.raw "B")),
              ("notes.md", FsNode.file (FileData.raw "N"))]
    ∧ hasPartZip ("Part-9.zip".toList) = true := by
  exact ⟨rfl, by decide⟩

/-- C6 amended: for the example archive — `Part-1.zip` and `Part-2.zip`
holding ordinary files, plus `Export-foo/notes.md` — flattening removes
both part archives and the export folder and leaves the parts' files and
`notes.md` directly under the destination, whatever the three file
contents are. -/
theorem c6_flatten_example (s1 s2 c : String) :
    extractZipM (exampleArchive s1 s2 c) id []
      = some [("a.md", FsNode.file (FileData.raw s1)),
              ("b.md", FsNode.file (FileData.raw s2)),
              ("notes.md", FsNode.file (FileData.raw c))] := rfl

/-- C7 counterexample: the archive with `Export-a/x.md` and
`Export-b/x.md` flattens to `x.md = "2"` under one completion order of
the unordered moves and to `x.md = "1"` under the reverse order — two
runs of `flatten` on the same archive can yield different trees. -/
theorem c7_collision_schedule_dependent :
    rawAt (extractZipM collidingArchive id []) ["x.md"] = some "2"
    ∧ rawAt (extractZipM collidingArchive (fun l => l.reverse) []) ["x.md"] = some "1"
    ∧ (some "2" : Option String) ≠ some "1" := by
  exact ⟨rfl, rfl, by decide⟩

theorem perm_pair_cases {α : Type} {l : List α} {a b : α} (hab : a ≠ b)
    (h : l.Perm [a, b]) : l = [a, b] ∨ l = [b, a] := by
  have hlen : l.length = 2 := by simpa using h.length_eq
  obtain ⟨x, y, rfl⟩ : ∃ x y, l = [x, y] := by
    match l, hlen with
    | [x, y], _ => exact ⟨x, y, rfl⟩
  have hx : x = a ∨ x = b := by
    have hm : x ∈ ([a, b] : List α) := h.mem_iff.mp (by simp)
    simpa using hm
  have hy : y = a ∨ y = b := by
    have hm : y ∈ ([a, b] : List α) := h.mem_iff.mp (by simp)
    simpa using hm
  rcases hx with h1 | h1 <;> rcases hy with h2 | h2
  · have hb : b = x ∨ b = y := by
      have hm := h.mem_iff.mpr (show b ∈ [a, b] by simp)
      simpa using hm
    rcases hb with h3 | h3
    · exact absurd (h3.trans h1).symm hab
    · exact absurd (h3.trans h2).symm hab
  · exact Or.inl (by rw [h1, h2])
  · exact Or.inr (by rw [h1, h2])
  · have ha : a = x ∨ a = y := by
      have hm := h.mem_iff.mpr (show a ∈ [a, b] by simp)
      simpa using hm
    rcases ha with h3 | h3
    · exact absurd (h3.trans h1) hab
    · exact absurd (h3.trans h2) hab

/-- C7 amended, for the disjoint-children family `Export-a/x.md`,
`Export-b/y.md` with arbitrary file contents: under every completion
order of the unordered folder moves (every permutation the runtime could
realize), flattening yields one and the same tree — so two runs into
fresh destinations agree on such archives. -/
theorem c7_disjoint_children_deterministic (s1 s2 : String)
    (sF : List String → List String)
    (hperm : (sF ["Export-a", "Export-b"]).Perm ["Export-a", "Export-b"]) :
    extractZipM (disjointArchive s1 s2) sF []
      = some [("x.md", FsNode.file (FileData.raw s1)),
              ("y.md", FsNode.file (FileData.raw s2))] := by
  have expand : extractZipM (disjointArchive s1 s2) sF []
      = extractZipM (disjointArchive s1 s2) (fun _ => sF ["Export-a", "Export-b"]) [] := rfl
  rcases perm_pair_cases (by decide) hperm with h1 | h1 <;>
    · rw [expand]
      simp only [h1]
      rfl

/-- C7 amended, witnessed at the reversed completion order with concrete
contents. -/
theorem c7_disjoint_children_deterministic_witness :
    (List.reverse ["Export-a", "Export-b"]).Perm ["Export-a", "Export-b"]
    ∧ extractZipM (disjointArchive "1" "2") List.reverse []
        = some [("x.md", FsNode.file (FileData.raw "1")),
                ("y.md", FsNode.file (FileData.raw "2"))] :=
  ⟨by decide,
   c7_disjoint_children_deterministic "1" "2" List.reverse (by decide)⟩

/-- C8 counterexample: a source stream delivering 0 of 10 declared bytes
is truncated, and the awaited promise neither resolves nor rejects — in
particular no download error is raised. -/
theorem c8_truncation_not_rejected :
    downloadAwait (classifyStream 0 10) SinkEvt.wrote = AwaitResult.neverSettles
    ∧ AwaitResult.neverSettles ≠ AwaitResult.rejected := by
  exact ⟨rfl, by decide⟩

/-- C8 amended: the download await rejects exactly on a destination
write-stream error; source-side truncation is not detected (the declared
content-length is only logged). -/
theorem c8_rejects_iff_write_error (src : SourceEvt) (snk : SinkEvt) :
    downloadAwait src snk = .rejected ↔ snk = .writeError := by
  cases src <;> cases snk <;> simp [downloadAwait]

/-- C9 counterexample: a run whose archive's `Part-1.zip` entry holds
bytes that are not a zip fails during extraction; the pre-existing
destination content (`old.txt`) is already deleted and the destination is
left holding the partially extracted `Part-1.zip` — neither absent, nor
unreplaced, nor the completed flattened content. -/
theorem c9_partial_state_on_extraction_error :
    (runDest (some preOld) true [("Part-1.zip", FileData.raw "junk")] id).2 = false
    ∧ (runDest (some preOld) true [("Part-1.zip", FileData.raw "junk")] id).1.map topNames
        = some ["Part-1.zip"]
    ∧ (some ["Part-1.zip"] : Option (List String)) ≠ some (topNames preOld)
    ∧ (some ["Part-1.zip"] : Option (List String)) ≠ none
    ∧ (some ["Part-1.zip"] : Option (List String)) ≠ some [] := by
  exact ⟨rfl, rfl, by decide, by decide, by decide⟩

/-- C9 amended: an error in the export-and-download phase leaves the
destination exactly as it was; once that phase succeeds the destination is
cleared before extraction, so an extraction error leaves it in the
partially extracted state reached so far (no rollback), shown for the
malformed-part archive with arbitrary junk bytes and arbitrary
pre-existing content. -/
theorem c9_error_state_amended (pre : Option Fs) (junk : String)
    (entries : List (String × FileData))
    (sF : List String → List String) :
    runDest pre false entries sF = (pre, false)
    ∧ runDest pre true [("Part-1.zip", FileData.raw junk)] id
        = (some [("Part-1.zip", FsNode.file (FileData.raw junk))], false) :=
  ⟨rfl, rfl⟩
